import Mathlib

/-
Verification of the ddblibrarian snapshot engine against its specification.

The development shallowly embeds the Go sources:
  * `ddblibrarian.go`   — the versioned-access facade (`Library`): key tagging
    (`addSnapshotToPartitionKey`, `removeSnapshotFromPartitionKey`,
    `restorePartitionKey`), the read/delete fallback walks, and the
    single-item / batch operations;
  * the metadata package (`self`, file `part_004`) — the snapshot metadata
    record and its operations (`Snapshot`, `GetSnapshotID`,
    `GetCurrentSnapshotID`, `GetChronologicalSnapshotIDs`,
    `getNextAvailableID`).

Go values are modelled as follows: `dynamodb.AttributeValue` becomes a
two-field structure over `String` (the `S` and `N` payloads; the Go code only
ever reads/writes the field selected by the partition-key type); Go maps
become association lists with first-match lookup and replace-or-append
insertion; the DynamoDB service becomes an explicit state-passing oracle
(`Svc`), so both the success and the error behaviour of every underlying
call can be analysed; in-place mutation of caller-supplied structures
becomes explicit value threading — every facade operation returns, next to
its result, the caller-visible final state of its input structure.
-/

set_option maxHeartbeats 1000000

namespace Ddblibrarian

/-- Model of `dynamodb.AttributeValue` restricted to the two payloads the
library touches: the string field `S` and the numeric-as-string field `N`.
The Go code dereferences exactly one of the two, selected by the
partition-key type, so both are kept as plain strings. -/
structure AttributeValue where
  S : String
  N : String
deriving DecidableEq, Repr

/-- Go constant `snapshotDelimiter = "."` from `ddblibrarian.go`. -/
def snapshotDelimiter : String := "."

/-- Go `getSnapshotPrefix`: the tag `snapshotID ++ "."` prepended to a
partition key (`ddblibrarian.go:730`). -/
def snapshotTagOf (snapshotID : String) : String :=
  snapshotID ++ snapshotDelimiter

/-- Read the partition-key payload selected by the key type: the branch
`if c.partitionKeyType == "S" { ... pk.S } else { ... pk.N }` that opens
each key helper in `ddblibrarian.go`. -/
def attrGet (ktype : String) (pk : AttributeValue) : String :=
  if ktype = "S" then pk.S else pk.N

/-- Write the partition-key payload selected by the key type: the
`pk.SetS(...) / pk.SetN(...)` branch closing each key helper. -/
def attrSet (ktype : String) (v : String) (pk : AttributeValue) : AttributeValue :=
  if ktype = "S" then { pk with S := v } else { pk with N := v }

/-- Go `addSnapshotToPartitionKey` (`ddblibrarian.go:675`): returns the
original key and the attribute after tagging.  An empty snapshot id leaves
the attribute untouched; otherwise the payload becomes
`snapshotID ++ "." ++ originalKey`. -/
def addSnapshotToPartitionKey (ktype snapshotID : String) (pk : AttributeValue) :
    String × AttributeValue :=
  let originalKey := attrGet ktype pk
  if snapshotID = "" then
    (originalKey, pk)
  else
    (originalKey, attrSet ktype (snapshotTagOf snapshotID ++ originalKey) pk)

/-- Go `restorePartitionKey` (`ddblibrarian.go:701`): writes an arbitrary
value back into the attribute. -/
def restorePartitionKey (ktype original : String) (pk : AttributeValue) : AttributeValue :=
  attrSet ktype original pk

/-- Go `removeSnapshotFromPartitionKey` (`ddblibrarian.go:710`): find the
first delimiter and drop everything up to and including it; if no delimiter
occurs the attribute is left unchanged.  `strings.Index` plus the slice
`[i+1:]` is rendered as `dropWhile` to the first `'.'`. -/
def removeSnapshotFromPartitionKey (ktype : String) (pk : AttributeValue) : AttributeValue :=
  let keyWithSnapshot := attrGet ktype pk
  match keyWithSnapshot.data.dropWhile (fun c => c ≠ '.') with
  | [] => pk
  | _ :: rest => attrSet ktype (String.mk rest) pk

end Ddblibrarian

namespace Self

open Ddblibrarian

/-- First-match association-list lookup, modelling Go map reads
(`v, ok := m[k]`). -/
def alookup {α : Type} : List (String × α) → String → Option α
  | [], _ => none
  | (a, b) :: r, x => if a = x then some b else alookup r x

/-- Replace-or-append association-list insertion, modelling Go map
assignment (`m[k] = v`). -/
def aupsert {α : Type} : List (String × α) → String → α → List (String × α)
  | [], x, v => [(x, v)]
  | (a, b) :: r, x, v => if a = x then (x, v) :: r else (a, b) :: aupsert r x v

/-- Go constant `SNAPSHOT_LATEST` from the metadata package. -/
def SNAPSHOT_LATEST : String := "latest"

/-- Go constant `SNAPSHOT_CURRENT` from the metadata package. -/
def SNAPSHOT_CURRENT : String := "current"

/-- Reserved partition-key value of the metadata item (`ddbPartitionKey`). -/
def ddbPartitionKey : String := "10998317287113653723324905557015239445"

/-- The cached metadata record (`config` in the metadata package): the
name-to-id map, the most-recent-first id list, and the current/latest
pointers.  The same shape also serves as the persisted metadata item
(attributes `snapshots`, `ids_list`, `current_snapshot`,
`latest_snapshot`), of which the cache is a verbatim copy at load time. -/
structure MetaState where
  snapshots : List (String × String)
  chronologicalSnapshotIDs : List String
  currentSnapshotID : String
  latestSnapshotID : String
deriving DecidableEq, Repr

/-- Go `GetSnapshotID` (metadata package): resolve a snapshot token to an
id.  Empty token resolves to the empty sentinel without any lookup; the
`latest`/`current` tokens read the cached pointers; anything else is a map
lookup failing when absent. -/
def GetSnapshotID (s : MetaState) (snapshot : String) : Except String String :=
  if snapshot = "" then .ok ""
  else if snapshot = SNAPSHOT_LATEST then .ok s.latestSnapshotID
  else if snapshot = SNAPSHOT_CURRENT then .ok s.currentSnapshotID
  else
    match alookup s.snapshots snapshot with
    | some id => .ok id
    | none => .error ("snapshot does not exist: " ++ snapshot)

/-- Go `GetCurrentSnapshotID` (metadata package): the globally active id. -/
def GetCurrentSnapshotID (s : MetaState) : String :=
  if s.currentSnapshotID = "" ∧ s.latestSnapshotID ≠ "" then ""
  else if s.currentSnapshotID ≠ "" then s.currentSnapshotID
  else s.latestSnapshotID

/-- Go `GetChronologicalSnapshotIDs` (metadata package): all ids starting
with `first`, in the cached most-recent-first order.  The empty sentinel
short-circuits to the one-element sequence; the `latest`/`current` tokens
resolve through the cached pointers; the two Go loops (skip until `first`,
then collect the remainder) are `dropWhile`. -/
def GetChronologicalSnapshotIDs (s : MetaState) (first : String) : List String :=
  if first = "" then [""]
  else
    let first :=
      if first = SNAPSHOT_LATEST then s.latestSnapshotID
      else if first = SNAPSHOT_CURRENT then s.currentSnapshotID
      else first
    s.chronologicalSnapshotIDs.dropWhile (fun id => id ≠ first)

/-- Accumulating decimal-digit evaluation, for the `strconv.ParseInt`
model. -/
def digitsValAux : List Char → Nat → Option Nat
  | [], acc => some acc
  | c :: r, acc =>
    if c.isDigit then digitsValAux r (acc * 10 + (c.toNat - '0'.toNat)) else none

/-- Model of Go `strconv.ParseInt(s, 10, 64)`: an optional sign followed
by a nonempty run of decimal digits (64-bit overflow is irrelevant at the
two-digit ids this code parses). -/
def parseInt64 (s : String) : Option Int :=
  match s.data with
  | [] => none
  | '-' :: rest =>
    match rest with
    | [] => none
    | _ => (digitsValAux rest 0).map (fun n => -(n : Int))
  | '+' :: rest =>
    match rest with
    | [] => none
    | _ => (digitsValAux rest 0).map (fun n => (n : Int))
  | l => (digitsValAux l 0).map (fun n => (n : Int))

/-- Inner loop of `getNextAvailableID`: scan the assigned id strings for
one that parses to `i`; a parse failure aborts the whole allocation, as
`strconv.ParseInt` errors are returned immediately. -/
def idTaken : List String → Int → Except String Bool
  | [], _ => .ok false
  | v :: rest, i =>
    match parseInt64 v with
    | none => .error "failed to parse snapshot id"
    | some id => if id = i then .ok true else idTaken rest i

/-- Outer loop of `getNextAvailableID`: try candidate ids upward from `i`,
for `fuel` iterations (the Go loop `for i = 1; i < 100; i++`). -/
def findFreeFrom (vals : List String) : Int → Nat → Except String String
  | _, 0 => .error "no IDs left"
  | i, fuel + 1 =>
    match idTaken vals i with
    | .error e => .error e
    | .ok true => findFreeFrom vals (i + 1) fuel
    | .ok false => .ok (toString i)

/-- Go `getNextAvailableID` (metadata package): smallest unassigned id in
`1..99` (`snapshotIDLength = 2`, so the bound is `10^2`), or an error when
the id space is exhausted. -/
def getNextAvailableID (s : MetaState) : Except String String :=
  findFreeFrom (s.snapshots.map Prod.snd) 1 99

/-- Specification-side predicate: integer `i` is among the assigned
snapshot ids `vals` (each a decimal string). -/
def takenB (vals : List String) (i : Int) : Bool :=
  vals.any (fun v => parseInt64 v == some i)

/-- Result of the metadata `Snapshot` operation: the Go function returns
`(newID, err)`; in addition the embedding exposes the in-memory cache after
the call, the persisted metadata item after the call, and whether the
conditional update was submitted to the store at all. -/
structure SnapshotRet where
  newID : String
  err : Option String
  cache : MetaState
  persisted : MetaState
  updateSent : Bool
deriving DecidableEq, Repr

/-- Go `Snapshot` (metadata package): create a snapshot named `snapshot`.
Checks, in order: duplicate name, current-vs-latest agreement, id
allocation; then mutates the cached map and id list, and submits one
conditional update writing the new map, the new id list and the new
latest/current pointers.  `updateErr` is the outcome of that conditional
update (`none` = accepted; `some e` = rejected, e.g. the optimistic
precondition on `latest_snapshot` failed): on rejection the persisted
record is unchanged while the cache keeps its mutations, exactly as in the
source, where the map/list writes precede `svc.UpdateItem` and nothing is
rolled back. -/
def Snapshot (s : MetaState) (snapshot : String) (updateErr : Option String) : SnapshotRet :=
  if (alookup s.snapshots snapshot).isSome then
    ⟨"", some ("snapshot already exists: " ++ snapshot), s, s, false⟩
  else if s.currentSnapshotID ≠ s.latestSnapshotID then
    ⟨"", some "current snapshot does not match latest", s, s, false⟩
  else
    match getNextAvailableID s with
    | .error e => ⟨"", some ("failed to get a snapshot ID:" ++ e), s, s, false⟩
    | .ok newID =>
      let cache1 : MetaState :=
        { s with
          snapshots := aupsert s.snapshots snapshot newID
          chronologicalSnapshotIDs := newID :: s.chronologicalSnapshotIDs }
      match updateErr with
      | some e => ⟨newID, some e, cache1, s, true⟩
      | none =>
        ⟨newID, none, cache1,
          { cache1 with latestSnapshotID := newID, currentSnapshotID := newID }, true⟩

end Self

namespace Ddblibrarian

open Self

/-- The per-session facade state (`Library` in `ddblibrarian.go`): the
partition-key type plus the client-local browsing override.  The table
name, range-key schema and service handle are irrelevant to the embedded
algorithms and omitted. -/
structure Library where
  partitionKeyType : String
  browsing : Bool
  currentSnapshot : String
deriving DecidableEq, Repr

/-- A stored item as the claims need it: its partition-key attribute (as
returned by the store, i.e. possibly tagged) together with its remaining
attribute payload, collapsed to one string. -/
abbrev Item := AttributeValue × String

/-- The underlying DynamoDB service, as an explicit state-passing oracle
over a store state `σ`.  Every operation receives the (tagged)
partition-key attribute the facade built and may fail, modelling arbitrary
store errors.  `deleteItem` reports the previous item (the facade always
requests `ALL_OLD`). -/
structure Svc (σ : Type) where
  getItem : σ → AttributeValue → Except String (Option Item) × σ
  putItem : σ → AttributeValue → String → Except String Unit × σ
  updateItem : σ → AttributeValue → Except String Unit × σ
  deleteItem : σ → AttributeValue → Except String (Option Item) × σ

/-- Caller-supplied input of `GetItem` (`dynamodb.GetItemInput`): the
partition-key attribute `input.Key[c.partitionKey]`. -/
structure GetItemInput where
  Key : AttributeValue
deriving DecidableEq, Repr

/-- Caller-supplied input of `PutItem` (`dynamodb.PutItemInput`): the
partition-key attribute `input.Item[c.partitionKey]` plus the rest of the
item, collapsed to one payload string. -/
structure PutItemInput where
  key : AttributeValue
  value : String
deriving DecidableEq, Repr

/-- Caller-supplied input of `UpdateItem` (`dynamodb.UpdateItemInput`):
the partition-key attribute `input.Key[c.partitionKey]`. -/
structure UpdateItemInput where
  Key : AttributeValue
deriving DecidableEq, Repr

/-- Caller-supplied input of `DeleteItem` (`dynamodb.DeleteItemInput`):
the partition-key attribute and the `ReturnValues` field. -/
structure DeleteItemInput where
  Key : AttributeValue
  ReturnValues : Option String
deriving DecidableEq, Repr

/-- Outcome of one facade call: the value (or error) returned to the
caller, the caller-visible final contents of the input structure (the Go
code mutates it in place), and the store state after the call. -/
structure CallRet (α β σ : Type) where
  out : α
  input : β
  st : σ

/-- Go `getItemWithSnapshotID` (`ddblibrarian.go:350`): tag the key, call
the store, restore the caller's key, and (on success) restore the key
inside the returned item. -/
def getItemWithSnapshotID (L : Library) (svc : Svc σ) (s : σ)
    (input : GetItemInput) (id : String) :
    CallRet (Except String (Option Item)) GetItemInput σ :=
  let (originalKey, tagged) := addSnapshotToPartitionKey L.partitionKeyType id input.Key
  let (r, s1) := svc.getItem s tagged
  let restored : GetItemInput := ⟨restorePartitionKey L.partitionKeyType originalKey tagged⟩
  match r with
  | .error e => ⟨.error e, restored, s1⟩
  | .ok none => ⟨.ok none, restored, s1⟩
  | .ok (some (ipk, v)) =>
    ⟨.ok (some (restorePartitionKey L.partitionKeyType originalKey ipk, v)), restored, s1⟩

/-- The fallback loop of `GetItem` (`ddblibrarian.go:319`): try each
candidate id; a store error returns immediately, a found item returns
immediately, absence moves to the next candidate; after the last candidate
the pre-snapshot sentinel `""` is tried. -/
def getItemLoop (L : Library) (svc : Svc σ) :
    σ → GetItemInput → List String → CallRet (Except String (Option Item)) GetItemInput σ
  | s, input, [] => getItemWithSnapshotID L svc s input ""
  | s, input, id :: rest =>
    let r := getItemWithSnapshotID L svc s input id
    match r.out with
    | .error e => ⟨.error e, r.input, r.st⟩
    | .ok (some item) => ⟨.ok (some item), r.input, r.st⟩
    | .ok none => getItemLoop L svc r.st r.input rest

/-- Go `GetItem` (`ddblibrarian.go:304`): start the fallback walk at the
browsed snapshot if browsing, else at the globally active id. -/
def GetItem (L : Library) (meta : MetaState) (svc : Svc σ) (s : σ) (input : GetItemInput) :
    CallRet (Except String (Option Item)) GetItemInput σ :=
  let startFrom := if L.browsing then L.currentSnapshot else GetCurrentSnapshotID meta
  getItemLoop L svc s input (GetChronologicalSnapshotIDs meta startFrom)

/-- Go `GetItemFromSnapshot` (`ddblibrarian.go:336`): resolve the token to
one id and make a single attempt; an unresolvable token fails without
touching the input. -/
def GetItemFromSnapshot (L : Library) (meta : MetaState) (svc : Svc σ) (s : σ)
    (input : GetItemInput) (snapshot : String) :
    CallRet (Except String (Option Item)) GetItemInput σ :=
  match GetSnapshotID meta snapshot with
  | .error e => ⟨.error e, input, s⟩
  | .ok id => getItemWithSnapshotID L svc s input id

/-- Go `PutItem` (`ddblibrarian.go:186`): resolve the active id via the
`current` token, tag the caller's key, write, restore the key. -/
def PutItem (L : Library) (meta : MetaState) (svc : Svc σ) (s : σ) (input : PutItemInput) :
    CallRet (Except String Unit) PutItemInput σ :=
  match GetSnapshotID meta SNAPSHOT_CURRENT with
  | .error e => ⟨.error ("failed to get snapshot ID: " ++ e), input, s⟩
  | .ok snapshotID =>
    let (originalKey, tagged) := addSnapshotToPartitionKey L.partitionKeyType snapshotID input.key
    let (r, s1) := svc.putItem s tagged input.value
    ⟨r, ⟨restorePartitionKey L.partitionKeyType originalKey tagged, input.value⟩, s1⟩

/-- Go `UpdateItem` (`ddblibrarian.go:274`): same shape as `PutItem`. -/
def UpdateItem (L : Library) (meta : MetaState) (svc : Svc σ) (s : σ) (input : UpdateItemInput) :
    CallRet (Except String Unit) UpdateItemInput σ :=
  match GetSnapshotID meta SNAPSHOT_CURRENT with
  | .error e => ⟨.error ("failed to get snapshot ID: " ++ e), input, s⟩
  | .ok snapshotID =>
    let (originalKey, tagged) := addSnapshotToPartitionKey L.partitionKeyType snapshotID input.Key
    let (r, s1) := svc.updateItem s tagged
    ⟨r, ⟨restorePartitionKey L.partitionKeyType originalKey tagged⟩, s1⟩

/-- Go `deleteItemWithSnapshotID` (`ddblibrarian.go:663`): tag the key,
delete, restore the caller's key; the result is passed through as-is. -/
def deleteItemWithSnapshotID (L : Library) (svc : Svc σ) (s : σ)
    (input : DeleteItemInput) (id : String) :
    CallRet (Except String (Option Item)) DeleteItemInput σ :=
  let (originalKey, tagged) := addSnapshotToPartitionKey L.partitionKeyType id input.Key
  let (r, s1) := svc.deleteItem s tagged
  ⟨r, ⟨restorePartitionKey L.partitionKeyType originalKey tagged, input.ReturnValues⟩, s1⟩

/-- The fallback loop of `DeleteItem` (`ddblibrarian.go:628`): the source
checks `err == nil && output.Attributes != nil` to stop, so both a store
error and an absent item fall through to the next candidate; after the
last candidate the pre-snapshot sentinel `""` is tried and that attempt's
outcome is returned verbatim. -/
def deleteItemLoop (L : Library) (svc : Svc σ) :
    σ → DeleteItemInput → List String → CallRet (Except String (Option Item)) DeleteItemInput σ
  | s, input, [] => deleteItemWithSnapshotID L svc s input ""
  | s, input, id :: rest =>
    let r := deleteItemWithSnapshotID L svc s input id
    match r.out with
    | .ok (some item) => ⟨.ok (some item), r.input, r.st⟩
    | _ => deleteItemLoop L svc r.st r.input rest

/-- Go `DeleteItem` (`ddblibrarian.go:610`): overwrite the caller's
`ReturnValues` with `ALL_OLD`, then run the fallback walk from the active
(or browsed) snapshot. -/
def DeleteItem (L : Library) (meta : MetaState) (svc : Svc σ) (s : σ) (input : DeleteItemInput) :
    CallRet (Except String (Option Item)) DeleteItemInput σ :=
  let startFrom := if L.browsing then L.currentSnapshot else GetCurrentSnapshotID meta
  let ids := GetChronologicalSnapshotIDs meta startFrom
  deleteItemLoop L svc s { input with ReturnValues := some "ALL_OLD" } ids

/-- Go `DeleteItemFromSnapshot` (`ddblibrarian.go:645`): token resolution
happens before `ReturnValues` is overwritten, so the unknown-snapshot
error path leaves the caller's input untouched. -/
def DeleteItemFromSnapshot (L : Library) (meta : MetaState) (svc : Svc σ) (s : σ)
    (input : DeleteItemInput) (snapshot : String) :
    CallRet (Except String (Option Item)) DeleteItemInput σ :=
  match GetSnapshotID meta snapshot with
  | .error e => ⟨.error e, input, s⟩
  | .ok id => deleteItemWithSnapshotID L svc s { input with ReturnValues := some "ALL_OLD" } id

/-- One element of `BatchWriteItemInput.RequestItems[table]`: an optional
delete request and an optional put request, each carrying its
partition-key attribute. -/
structure WriteRequest where
  DeleteRequest : Option AttributeValue
  PutRequest : Option AttributeValue
deriving DecidableEq, Repr

/-- Tag both keys of one write request. -/
def tagWriteRequest (ktype id : String) (r : WriteRequest) : WriteRequest :=
  ⟨r.DeleteRequest.map (fun a => (addSnapshotToPartitionKey ktype id a).2),
   r.PutRequest.map (fun a => (addSnapshotToPartitionKey ktype id a).2)⟩

/-- Strip the tag from both keys of one write request. -/
def stripWriteRequest (ktype : String) (r : WriteRequest) : WriteRequest :=
  ⟨r.DeleteRequest.map (removeSnapshotFromPartitionKey ktype),
   r.PutRequest.map (removeSnapshotFromPartitionKey ktype)⟩

/-- Go `BatchWriteItem` (`ddblibrarian.go:219`), single-table case.  The
snapshot id is written into every request key of the caller's input; after
the store call the tag is stripped only from the `UnprocessedItems` of the
*output* — a separate structure deserialized from the wire response, not
aliased with the caller's input — so the caller's request keys stay
tagged.  The oracle `svcBW` returns the unprocessed subset. -/
def BatchWriteItem (L : Library) (meta : MetaState)
    (svcBW : σ → List WriteRequest → Except String (List WriteRequest) × σ) (s : σ)
    (requests : List WriteRequest) :
    CallRet (Except String (List WriteRequest)) (List WriteRequest) σ :=
  match GetSnapshotID meta SNAPSHOT_CURRENT with
  | .error e => ⟨.error ("failed to get snapshot ID: " ++ e), requests, s⟩
  | .ok id =>
    let requests1 := requests.map (tagWriteRequest L.partitionKeyType id)
    let (out, s1) := svcBW s requests1
    match out with
    | .error e => ⟨.error e, requests1, s1⟩
    | .ok unprocessed =>
      ⟨.ok (unprocessed.map (stripWriteRequest L.partitionKeyType)), requests1, s1⟩

/-- Go `batchGetItemWithSnapshotID` (`ddblibrarian.go:432`), single-table
case: tag every requested key, call the store, restore the caller's keys by
*stripping* the tag (`removeSnapshotFromPartitionKey`, not a saved-value
restore), then strip the keys inside the response items and the
unprocessed-keys list.  The oracle returns the optional response items and
the unprocessed keys. -/
def batchGetItemWithSnapshotID (L : Library)
    (svcBG : σ → List AttributeValue →
      Except String (Option (List Item) × List AttributeValue) × σ) (s : σ)
    (keys : List AttributeValue) (id : String) :
    CallRet (Except String (Option (List Item) × List AttributeValue)) (List AttributeValue) σ :=
  let keys1 := keys.map (fun k => (addSnapshotToPartitionKey L.partitionKeyType id k).2)
  let (out, s1) := svcBG s keys1
  let keys2 := keys1.map (removeSnapshotFromPartitionKey L.partitionKeyType)
  match out with
  | .error e => ⟨.error e, keys2, s1⟩
  | .ok (responses, unprocessed) =>
    ⟨.ok (responses.map (List.map
        (fun iv => (removeSnapshotFromPartitionKey L.partitionKeyType iv.1, iv.2))),
      unprocessed.map (removeSnapshotFromPartitionKey L.partitionKeyType)), keys2, s1⟩

/-- An S-typed or N-typed attribute holding `v` in the field selected by
the key type, the other field empty. -/
def keyAttr (ktype v : String) : AttributeValue :=
  attrSet ktype v ⟨"", ""⟩

/-- Caller-visible effect of Go `scanWithSnapshotID` (`ddblibrarian.go:531`)
on the `ExpressionAttributeValues` map of the caller's `ScanInput`.  The
source takes a *shallow* copy of the input, so the copy shares the map:
when the caller's map is nil a fresh map is allocated for the copy and the
caller sees nothing; otherwise the `":pk"` entry (if present) is tagged in
place, the `":metaPK"` filter entry is added, and, for a nonempty id,
either the `":prefix"` entry (string keys) or — after parsing the id; a
parse failure returns early with the mutations already applied — the
`":currentID"`/`":nextID"` entries (numeric keys).  Nothing is restored. -/
def scanWithSnapshotID_eav (L : Library) (id : String)
    (eav : Option (List (String × AttributeValue))) :
    Option (List (String × AttributeValue)) :=
  match eav with
  | none => none
  | some m =>
    let m1 :=
      match alookup m ":pk" with
      | some a => aupsert m ":pk" (addSnapshotToPartitionKey L.partitionKeyType id a).2
      | none => m
    let m2 := aupsert m1 ":metaPK" (keyAttr L.partitionKeyType ddbPartitionKey)
    if id = "" then some m2
    else if L.partitionKeyType = "S" then
      some (aupsert m2 ":prefix" ⟨snapshotTagOf id, ""⟩)
    else
      match parseInt64 id with
      | none => some m2
      | some n =>
        some (aupsert (aupsert m2 ":currentID" ⟨"", id⟩) ":nextID" ⟨"", toString (n + 1)⟩)

/-- A faithful store: an association list from physical partition-key
value to item payload.  Items come back carrying their physical (tagged)
key in the schema-selected field, as DynamoDB returns them. -/
def tableSvc (ktype : String) : Svc (List (String × String)) where
  getItem := fun t a =>
    (.ok ((alookup t (attrGet ktype a)).map (fun v => (keyAttr ktype (attrGet ktype a), v))), t)
  putItem := fun t a v => (.ok (), aupsert t (attrGet ktype a) v)
  updateItem := fun t _ => (.ok (), t)
  deleteItem := fun t a =>
    match alookup t (attrGet ktype a) with
    | none => (.ok none, t)
    | some v =>
      (.ok (some (keyAttr ktype (attrGet ktype a), v)),
        t.filter (fun e => e.1 ≠ attrGet ktype a))

/-- A stateless service built from pure per-key behaviours, used to
analyse the fallback walks under arbitrary store outcomes. -/
def pureSvc (g d : AttributeValue → Except String (Option Item)) : Svc Unit where
  getItem := fun _ a => (g a, ())
  putItem := fun _ _ _ => (.ok (), ())
  updateItem := fun _ _ => (.ok (), ())
  deleteItem := fun _ a => (d a, ())

/-- A recording service: logs every request the facade issues to the
store, in reverse order.  Used to state that two sessions issue the same
physical writes. -/
def logSvc : Svc (List (AttributeValue × String)) where
  getItem := fun σ a => (.ok none, (a, "get") :: σ)
  putItem := fun σ a v => (.ok (), (a, v) :: σ)
  updateItem := fun σ a => (.ok (), (a, "update") :: σ)
  deleteItem := fun σ a => (.ok none, (a, "delete") :: σ)

/-! Concrete states for the scenario of the specification: a fresh table,
a write of `v0`, snapshot `"a"`, a write of `v1`, snapshot `"b"`.  The
metadata states are the persisted record after each successful snapshot
(each facade call loads a fresh metadata cache, so the cache equals the
persisted record at every step of a sequential run). -/

/-- Fresh metadata: no snapshots, empty pointers. -/
def scenMeta0 : Self.MetaState := ⟨[], [], "", ""⟩

/-- Metadata after `Snapshot("a")` succeeded on a fresh table. -/
def scenMeta1 : Self.MetaState := (Self.Snapshot scenMeta0 "a" none).persisted

/-- Metadata after `Snapshot("a")` then `Snapshot("b")`. -/
def scenMeta2 : Self.MetaState := (Self.Snapshot scenMeta1 "b" none).persisted

/-- A non-browsing session over partition-key type `kt`. -/
def scenLib (kt : String) : Library := ⟨kt, false, ""⟩

/-- Table contents after writing `v0` under raw key `k` before any
snapshot existed. -/
def scenTable1 (kt k v0 : String) : List (String × String) :=
  (PutItem (scenLib kt) scenMeta0 (tableSvc kt) [] ⟨keyAttr kt k, v0⟩).st

/-- Table contents after additionally writing `v1` under `k` while
snapshot `"a"` is active. -/
def scenTable2 (kt k v0 v1 : String) : List (String × String) :=
  (PutItem (scenLib kt) scenMeta1 (tableSvc kt) (scenTable1 kt k v0) ⟨keyAttr kt k, v1⟩).st

/-- An adversarial get behaviour: the store fails on the key tagged with
id `"2"` and reports absence everywhere else. -/
def cexGetSvcFn (a : AttributeValue) : Except String (Option Item) :=
  if a.S = "2.k" then .error "boom" else .ok none

/-- An adversarial delete behaviour: the store fails on the key tagged
with id `"2"`, deletes (and returns) an item at the key tagged with id
`"1"`, and reports absence everywhere else. -/
def cexDelSvcFn (a : AttributeValue) : Except String (Option Item) :=
  if a.S = "2.k" then .error "store exploded"
  else if a.S = "1.k" then .ok (some (⟨"1.k", ""⟩, "v1"))
  else .ok none

end Ddblibrarian

namespace Ddblibrarian

open Self

/-! Helper lemmas about the attribute accessors and about `dropWhile`. -/

theorem attrGet_attrSet (kt v : String) (a : AttributeValue) :
    attrGet kt (attrSet kt v a) = v := by
  by_cases h : kt = "S" <;> simp [attrGet, attrSet, h]

theorem attrSet_attrSet (kt v w : String) (a : AttributeValue) :
    attrSet kt v (attrSet kt w a) = attrSet kt v a := by
  by_cases h : kt = "S" <;> simp [attrSet, h]

theorem attrSet_attrGet_self (kt : String) (a : AttributeValue) :
    attrSet kt (attrGet kt a) a = a := by
  by_cases h : kt = "S" <;> simp [attrGet, attrSet, h]

theorem dropWhile_eq_nil_of_all {α : Type} (p : α → Bool) :
    ∀ l : List α, (∀ c ∈ l, p c = true) → l.dropWhile p = []
  | [], _ => rfl
  | c :: r, h => by
    have hc : p c = true := h c (List.mem_cons_self c r)
    simp only [List.dropWhile, hc]
    exact dropWhile_eq_nil_of_all p r (fun x hx => h x (List.mem_cons_of_mem c hx))

theorem dropWhile_append_of_all {α : Type} (p : α → Bool) :
    ∀ l1 l2 : List α, (∀ c ∈ l1, p c = true) →
      (l1 ++ l2).dropWhile p = l2.dropWhile p
  | [], _, _ => rfl
  | c :: r, l2, h => by
    have hc : p c = true := h c (List.mem_cons_self c r)
    simp only [List.cons_append, List.dropWhile, hc]
    exact dropWhile_append_of_all p r l2 (fun x hx => h x (List.mem_cons_of_mem c hx))

theorem digit_ne_dot {c : Char} (h : c.isDigit = true) : c ≠ '.' := by
  intro hc
  subst hc
  simp [Char.isDigit] at h

/-- Decoding after encoding is the identity on the whole attribute, for
any delimiter-free raw key and any digit-string (or empty) snapshot id. -/
theorem remove_add_eq (ktype i : String) (pk : AttributeValue)
    (hk : '.' ∉ (attrGet ktype pk).data)
    (hi : i = "" ∨ ∀ c ∈ i.data, c.isDigit = true) :
    removeSnapshotFromPartitionKey ktype (addSnapshotToPartitionKey ktype i pk).2 = pk := by
  have hknodot : ∀ c ∈ (attrGet ktype pk).data, (decide (c ≠ '.')) = true := by
    intro c hc
    simp only [decide_eq_true_eq]
    intro hcd
    exact hk (hcd ▸ hc)
  by_cases hie : i = ""
  · subst hie
    have hadd : (addSnapshotToPartitionKey ktype "" pk).2 = pk := by
      simp [addSnapshotToPartitionKey]
    have hdk : (attrGet ktype pk).data.dropWhile (fun c => c ≠ '.') = [] :=
      dropWhile_eq_nil_of_all _ _ hknodot
    rw [hadd]
    simp only [removeSnapshotFromPartitionKey, hdk]
  · have hdig : ∀ c ∈ i.data, c.isDigit = true := hi.resolve_left hie
    have hadd : (addSnapshotToPartitionKey ktype i pk).2
        = attrSet ktype (snapshotTagOf i ++ attrGet ktype pk) pk := by
      simp [addSnapshotToPartitionKey, hie]
    have hdrop : (snapshotTagOf i ++ attrGet ktype pk).data.dropWhile (fun c => c ≠ '.')
        = '.' :: (attrGet ktype pk).data := by
      rw [show (snapshotTagOf i ++ attrGet ktype pk).data
          = i.data ++ ('.' :: (attrGet ktype pk).data) by
        simp [snapshotTagOf, snapshotDelimiter, String.data_append]]
      rw [dropWhile_append_of_all]
      · simp [List.dropWhile]
      · intro c hc
        simp only [decide_eq_true_eq]
        exact digit_ne_dot (hdig c hc)
    rw [hadd]
    simp only [removeSnapshotFromPartitionKey, attrGet_attrSet, hdrop, attrSet_attrSet]
    exact attrSet_attrGet_self ktype pk

/-- Claim C1: for every snapshot id `i` (either the empty sentinel or a
string of decimal digits, as produced by the allocator) and every raw
partition-key value `k` that does not contain the delimiter `'.'`, for
both key types, decoding an encoded key returns the original key:
`removeSnapshotFromPartitionKey` after `addSnapshotToPartitionKey i`
leaves the attribute exactly as it was (in particular the attribute holds
exactly `k` again), and encoding with the empty sentinel id leaves the key
unchanged. -/
theorem keycodec_roundtrip (ktype i k : String) (pk : AttributeValue)
    (hpk : attrGet ktype pk = k)
    (hk : '.' ∉ k.data)
    (hi : i = "" ∨ ∀ c ∈ i.data, c.isDigit = true) :
    removeSnapshotFromPartitionKey ktype (addSnapshotToPartitionKey ktype i pk).2 = pk
    ∧ attrGet ktype
        (removeSnapshotFromPartitionKey ktype (addSnapshotToPartitionKey ktype i pk).2) = k
    ∧ (i = "" → (addSnapshotToPartitionKey ktype i pk).2 = pk) := by
  subst hpk
  have h1 := remove_add_eq ktype i pk hk hi
  exact ⟨h1, by rw [h1], fun hie => by simp [addSnapshotToPartitionKey, hie]⟩

/-- Witness for C1 at the string key type, id `"7"`, raw key
`"order66"`. -/
theorem keycodec_roundtrip_witness :
    ('.' ∉ "order66".data)
    ∧ removeSnapshotFromPartitionKey "S"
        (addSnapshotToPartitionKey "S" "7" ⟨"order66", ""⟩).2 = ⟨"order66", ""⟩ := by
  refine ⟨by decide, ?_⟩
  exact (keycodec_roundtrip "S" "7" "order66" ⟨"order66", ""⟩ rfl (by decide)
    (Or.inr (by decide))).1

/-! Lemmas for the id allocator. -/

theorem idTaken_eq (i : Int) :
    ∀ vals : List String, (∀ v ∈ vals, (parseInt64 v).isSome = true) →
      idTaken vals i = .ok (takenB vals i)
  | [], _ => rfl
  | v :: rest, h => by
    have hv : (parseInt64 v).isSome = true := h v (List.mem_cons_self v rest)
    obtain ⟨n, hn⟩ := Option.isSome_iff_exists.mp hv
    have ih := idTaken_eq i rest (fun x hx => h x (List.mem_cons_of_mem v hx))
    by_cases hni : n = i
    · subst hni
      simp [idTaken, takenB, hn]
    · simp [idTaken, takenB, hn, hni, ih]

theorem findFreeFrom_ok (vals : List String)
    (h : ∀ v ∈ vals, (parseInt64 v).isSome = true) :
    ∀ (fuel : Nat) (i k : Int), i ≤ k → k < i + fuel →
      (∀ j : Int, i ≤ j → j < k → takenB vals j = true) → takenB vals k = false →
      findFreeFrom vals i fuel = .ok (toString k)
  | 0, i, k, hik, hk, _, _ => by omega
  | fuel + 1, i, k, hik, hk, htk, hfree => by
    rw [findFreeFrom, idTaken_eq i vals h]
    by_cases hb : takenB vals i = true
    · have hik' : i < k := by
        rcases lt_or_eq_of_le hik with h' | h'
        · exact h'
        · rw [h'] at hb; rw [hb] at hfree; exact absurd hfree (by simp)
      rw [hb]
      exact findFreeFrom_ok vals h fuel (i + 1) k (by omega) (by omega)
        (fun j hj1 hj2 => htk j (by omega) hj2) hfree
    · have hb' : takenB vals i = false := by
        cases hx : takenB vals i
        · rfl
        · exact absurd hx hb
      have hik' : i = k := by
        rcases lt_or_eq_of_le hik with h' | h'
        · exact absurd (htk i le_rfl h') hb
        · exact h'
      rw [hb', hik']

theorem findFreeFrom_exhausted (vals : List String)
    (h : ∀ v ∈ vals, (parseInt64 v).isSome = true) :
    ∀ (fuel : Nat) (i : Int),
      (∀ j : Int, i ≤ j → j < i + fuel → takenB vals j = true) →
      findFreeFrom vals i fuel = .error "no IDs left"
  | 0, _, _ => rfl
  | fuel + 1, i, ht => by
    rw [findFreeFrom, idTaken_eq i vals h, ht i le_rfl (by omega)]
    exact findFreeFrom_exhausted vals h fuel (i + 1)
      (fun j hj1 hj2 => ht j (by omega) (by omega))

theorem findFreeFrom_error_imp (vals : List String)
    (h : ∀ v ∈ vals, (parseInt64 v).isSome = true) :
    ∀ (fuel : Nat) (i : Int) (e : String),
      findFreeFrom vals i fuel = .error e →
      ∀ j : Int, i ≤ j → j < i + fuel → takenB vals j = true
  | 0, i, e, _, j, hj1, hj2 => by omega
  | fuel + 1, i, e, heq, j, hj1, hj2 => by
    rw [findFreeFrom, idTaken_eq i vals h] at heq
    cases hb : takenB vals i
    · rw [hb] at heq
      exact absurd heq (by simp)
    · rw [hb] at heq
      by_cases hji : j = i
      · rw [hji]; exact hb
      · exact findFreeFrom_error_imp vals h fuel (i + 1) e heq j (by omega) (by omega)

/-- Claim C7: over any set of already-assigned ids drawn from `1..99`
(recorded as decimal strings in the metadata map), the allocator returns
the smallest integer in `1..99` that is not assigned, rendered as its
decimal string, and it fails with the ids-exhausted error exactly when all
ninety-nine ids are assigned. -/
theorem allocator_smallest_free (s : MetaState)
    (h : ∀ v ∈ s.snapshots.map Prod.snd,
      ∃ n : Int, parseInt64 v = some n ∧ 1 ≤ n ∧ n ≤ 99) :
    (∀ k : Int, 1 ≤ k → k ≤ 99 →
      (∀ j : Int, 1 ≤ j → j < k → takenB (s.snapshots.map Prod.snd) j = true) →
      takenB (s.snapshots.map Prod.snd) k = false →
      getNextAvailableID s = .ok (toString k))
    ∧ (getNextAvailableID s = .error "no IDs left"
        ↔ ∀ j : Int, 1 ≤ j → j ≤ 99 → takenB (s.snapshots.map Prod.snd) j = true) := by
  have h' : ∀ v ∈ s.snapshots.map Prod.snd, (parseInt64 v).isSome = true := by
    intro v hv
    obtain ⟨n, hn, _, _⟩ := h v hv
    simp [hn]
  refine ⟨?_, ?_, ?_⟩
  · intro k hk1 hk2 htk hfree
    exact findFreeFrom_ok _ h' 99 1 k hk1 (by omega) (fun j hj1 hj2 => htk j hj1 hj2) hfree
  · intro he j hj1 hj2
    exact findFreeFrom_error_imp _ h' 99 1 _ he j hj1 (by omega)
  · intro ht
    exact findFreeFrom_exhausted _ h' 99 1 (fun j hj1 hj2 => ht j hj1 (by omega))

/-- Witness for C7: with ids `1` and `3` assigned, the allocator returns
`"2"`. -/
theorem allocator_smallest_free_witness :
    getNextAvailableID ⟨[("a", "1"), ("b", "3")], ["3", "1"], "3", "3"⟩ = .ok "2" := by
  have := (allocator_smallest_free ⟨[("a", "1"), ("b", "3")], ["3", "1"], "3", "3"⟩
    (by intro v hv; fin_cases hv
        · exact ⟨1, by decide⟩
        · exact ⟨3, by decide⟩)).1
  exact this 2 (by decide) (by decide)
    (by intro j hj1 hj2
        have : j = 1 := by omega
        subst this
        decide)
    (by decide)

end Ddblibrarian

namespace Ddblibrarian

open Self

/-! Lemmas for the chronological id listing and the metadata `Snapshot`. -/

theorem alookup_aupsert {α : Type} (x : String) (v : α) :
    ∀ m : List (String × α), alookup (aupsert m x v) x = some v
  | [] => by simp [alookup, aupsert]
  | (a, b) :: r => by
    by_cases hax : a = x
    · simp [alookup, aupsert, hax]
    · simp only [aupsert, if_neg hax, alookup, if_neg hax]
      exact alookup_aupsert x v r

/-- Claim C5 counterexample: in the metadata state reached by creating
snapshot `"a"` (id `"1"`) and then snapshot `"b"` (id `"2"`), id `"2"` was
created strictly after id `"1"`, yet `GetChronologicalSnapshotIDs "1"`
returns only `["1"]` — it does not contain `"2"`, so the listing does not
return "every id created strictly after" the start id.  (It returns the
ids created strictly before it, i.e. the remainder of the
most-recent-first list.) -/
theorem chronologicalIds_after_counterexample :
    scenMeta2.chronologicalSnapshotIDs = ["2", "1"]
    ∧ Self.GetChronologicalSnapshotIDs scenMeta2 "1" = ["1"]
    ∧ "2" ∉ Self.GetChronologicalSnapshotIDs scenMeta2 "1" := by
  refine ⟨by decide, by decide, by decide⟩

/-- Claim C5, amended: for a start id that is none of the three symbolic
tokens, `GetChronologicalSnapshotIDs` returns the start id followed by
every id created strictly *before* it — the suffix of the most-recent-first
chronological list beginning at the start id; the empty sentinel yields
the one-element sequence `[""]`; a start id absent from the list yields
the empty sequence. -/
theorem chronologicalIds_from_spec (s : Self.MetaState) (startId : String)
    (hne : startId ≠ "") (hnl : startId ≠ Self.SNAPSHOT_LATEST)
    (hnc : startId ≠ Self.SNAPSHOT_CURRENT) :
    (Self.GetChronologicalSnapshotIDs s "" = [""])
    ∧ (∀ newer older : List String,
        s.chronologicalSnapshotIDs = newer ++ startId :: older →
        startId ∉ newer →
        Self.GetChronologicalSnapshotIDs s startId = startId :: older)
    ∧ (startId ∉ s.chronologicalSnapshotIDs →
        Self.GetChronologicalSnapshotIDs s startId = []) := by
  refine ⟨by simp [Self.GetChronologicalSnapshotIDs], ?_, ?_⟩
  · intro newer older hchron hnotin
    simp only [Self.GetChronologicalSnapshotIDs, if_neg hne, if_neg hnl, if_neg hnc, hchron]
    rw [dropWhile_append_of_all _ newer (startId :: older)
      (by intro x hx
          simp only [decide_eq_true_eq]
          intro hxe
          exact hnotin (hxe ▸ hx))]
    simp [List.dropWhile]
  · intro hnotin
    simp only [Self.GetChronologicalSnapshotIDs, if_neg hne, if_neg hnl, if_neg hnc]
    exact dropWhile_eq_nil_of_all _ _
      (by intro x hx
          simp only [decide_eq_true_eq]
          intro hxe
          exact hnotin (hxe ▸ hx))

/-- Witness for the amended C5 in the two-snapshot state: starting at the
newest id returns the whole list, and the empty sentinel returns the
one-element sequence. -/
theorem chronologicalIds_from_spec_witness :
    scenMeta2.chronologicalSnapshotIDs = ["2"] ++ "1" :: []
    ∧ Self.GetChronologicalSnapshotIDs scenMeta2 "1" = "1" :: []
    ∧ Self.GetChronologicalSnapshotIDs scenMeta2 "" = [""] := by
  have h := chronologicalIds_from_spec scenMeta2 "1" (by decide) (by decide) (by decide)
  exact ⟨by decide, h.2.1 ["2"] [] (by decide) (by decide), h.1⟩

/-- Claim C6: evaluation of the metadata `Snapshot` operation at the
empty snapshot name, on a fresh table.  The repository's own test
(`TestSnapshot` in `ddblibrarian_test.go`) expects `Snapshot("")` to
fail, but the code has no empty-name check (only a
`TODO: naming restrictions` comment): the call succeeds, allocates id
`"1"`, registers the empty name in the map and submits the update.  The
duplicate-name half of the claim does hold: re-creating `"a"` fails
before any allocation or store update. -/
theorem snapshot_empty_name_accepted :
    (Self.Snapshot scenMeta0 "" none).err = none
    ∧ (Self.Snapshot scenMeta0 "" none).newID = "1"
    ∧ (Self.Snapshot scenMeta0 "" none).updateSent = true
    ∧ (Self.Snapshot scenMeta0 "" none).persisted.snapshots = [("", "1")]
    ∧ (Self.Snapshot scenMeta1 "a" none).err
        = some "snapshot already exists: a"
    ∧ (Self.Snapshot scenMeta1 "a" none).updateSent = false
    ∧ (Self.Snapshot scenMeta1 "a" none).cache = scenMeta1
    ∧ (Self.Snapshot scenMeta1 "a" none).persisted = scenMeta1 := by
  refine ⟨by decide, by decide, by decide, by decide, by decide, by decide, by decide, by decide⟩

/-- Claim C9: the metadata `Snapshot` operation inserts the new name/id
pair into the cached map and prepends the new id to the cached
chronological list before submitting the conditional update; when the
update is rejected the call returns the error, the persisted record is
unchanged, and the cache keeps the mutations — the never-committed
snapshot entry remains visible in the cache. -/
theorem snapshot_cache_not_rolled_back (s : Self.MetaState) (name e nid : String)
    (hdup : Self.alookup s.snapshots name = none)
    (hcl : s.currentSnapshotID = s.latestSnapshotID)
    (halloc : Self.getNextAvailableID s = .ok nid) :
    (Self.Snapshot s name (some e)).err = some e
    ∧ (Self.Snapshot s name (some e)).updateSent = true
    ∧ (Self.Snapshot s name (some e)).cache.snapshots = Self.aupsert s.snapshots name nid
    ∧ (Self.Snapshot s name (some e)).cache.chronologicalSnapshotIDs
        = nid :: s.chronologicalSnapshotIDs
    ∧ (Self.Snapshot s name (some e)).persisted = s
    ∧ Self.alookup (Self.Snapshot s name (some e)).cache.snapshots name = some nid := by
  have hs : Self.Snapshot s name (some e)
      = ⟨nid, some e,
          { s with
            snapshots := Self.aupsert s.snapshots name nid
            chronologicalSnapshotIDs := nid :: s.chronologicalSnapshotIDs },
          s, true⟩ := by
    simp [Self.Snapshot, hdup, hcl, halloc]
  rw [hs]
  exact ⟨rfl, rfl, rfl, rfl, rfl, alookup_aupsert name nid s.snapshots⟩

/-- Witness for C9: a rejected conditional update after snapshot `"a"`
exists leaves the uncommitted entry `"b"` mapped to `"2"` in the cache
while the persisted record is unchanged. -/
theorem snapshot_cache_not_rolled_back_witness :
    Self.getNextAvailableID scenMeta1 = .ok "2"
    ∧ (Self.Snapshot scenMeta1 "b" (some "conditional check failed")).persisted = scenMeta1
    ∧ Self.alookup (Self.Snapshot scenMeta1 "b" (some "conditional check failed")).cache.snapshots
        "b" = some "2" := by
  have h := snapshot_cache_not_rolled_back scenMeta1 "b" "conditional check failed" "2"
    (by decide) rfl rfl
  exact ⟨rfl, h.2.2.2.2.1, h.2.2.2.2.2⟩

end Ddblibrarian


namespace Ddblibrarian

open Self

/-! String inequalities used to separate the physical keys of the
scenario table, and a characterization of single get-calls against the
table service. -/

theorem key_ne_tagged (i k : String) (h : (snapshotTagOf i).data ≠ []) :
    ¬(k = snapshotTagOf i ++ k) := by
  intro he
  have h2 := congrArg String.data he
  rw [String.data_append] at h2
  have h3 := congrArg List.length h2
  rw [List.length_append] at h3
  exact h (List.length_eq_zero.mp (by omega))

theorem tagged_ne_tagged (a b k : String) (hab : a ≠ b) : ¬(a ++ k = b ++ k) := by
  intro he
  have h2 := congrArg String.data he
  rw [String.data_append, String.data_append] at h2
  exact hab (String.ext (List.append_cancel_right h2))

/-- One get-call against the table service: the store is probed at the
physical (tagged) key, the caller's key attribute comes back restored, the
found item's key comes back restored, and the table is unchanged. -/
theorem getItemWithSnapshotID_tableSvc (kt id : String) (t : List (String × String))
    (k : String) :
    getItemWithSnapshotID (scenLib kt) (tableSvc kt) t ⟨keyAttr kt k⟩ id
      = ⟨.ok ((alookup t (if id = "" then k else snapshotTagOf id ++ k)).map
          (fun v => (keyAttr kt k, v))), ⟨keyAttr kt k⟩, t⟩ := by
  by_cases hid : id = ""
  · subst hid
    cases halk : alookup t k <;>
      simp [getItemWithSnapshotID, addSnapshotToPartitionKey, restorePartitionKey,
        tableSvc, keyAttr, attrGet_attrSet, attrSet_attrSet, scenLib, halk]
  · cases halk : alookup t (snapshotTagOf id ++ k) <;>
      simp [getItemWithSnapshotID, addSnapshotToPartitionKey, restorePartitionKey,
        tableSvc, keyAttr, attrGet_attrSet, attrSet_attrSet, scenLib, hid, halk]

/-- Table contents after the scenario writes: `v0` under the raw key,
`v1` under the key tagged with id `"1"`. -/
theorem scenTable2_eq (kt k v0 v1 : String) :
    scenTable2 kt k v0 v1 = [(k, v0), (snapshotTagOf "1" ++ k, v1)] := by
  have hk1 : ¬(k = snapshotTagOf "1" ++ k) := key_ne_tagged "1" k (by decide)
  have hsid0 : Self.GetSnapshotID scenMeta0 Self.SNAPSHOT_CURRENT = .ok "" := rfl
  have hsid1 : Self.GetSnapshotID scenMeta1 Self.SNAPSHOT_CURRENT = .ok "1" := rfl
  have ht1 : scenTable1 kt k v0 = [(k, v0)] := by
    rw [scenTable1, PutItem, hsid0]
    simp [addSnapshotToPartitionKey, tableSvc, keyAttr, attrGet_attrSet, aupsert, scenLib]
  rw [scenTable2, PutItem, hsid1, ht1]
  simp [addSnapshotToPartitionKey, tableSvc, keyAttr, attrGet_attrSet, aupsert, scenLib, hk1]

/-- Claim C2: starting from a table with no snapshots, after writing `v0`
for key `k`, creating snapshot `"a"`, writing `v1` for `k`, and creating
snapshot `"b"` — `GetItem` with no token returns `v1` (found in the
snapshot it was written to); reading from snapshot `"a"` returns `v1`;
reading from the pre-snapshot sentinel `""` returns `v0`; and reading from
the never-created name `"nope"` fails with the unknown-snapshot error.
Universal over the key type and over any raw key and values. -/
theorem scenario_read_fallback (kt k v0 v1 : String) :
    (GetItem (scenLib kt) scenMeta2 (tableSvc kt) (scenTable2 kt k v0 v1)
        ⟨keyAttr kt k⟩).out = .ok (some (keyAttr kt k, v1))
    ∧ (GetItemFromSnapshot (scenLib kt) scenMeta2 (tableSvc kt) (scenTable2 kt k v0 v1)
        ⟨keyAttr kt k⟩ "a").out = .ok (some (keyAttr kt k, v1))
    ∧ (GetItemFromSnapshot (scenLib kt) scenMeta2 (tableSvc kt) (scenTable2 kt k v0 v1)
        ⟨keyAttr kt k⟩ "").out = .ok (some (keyAttr kt k, v0))
    ∧ (GetItemFromSnapshot (scenLib kt) scenMeta2 (tableSvc kt) (scenTable2 kt k v0 v1)
        ⟨keyAttr kt k⟩ "nope").out = .error "snapshot does not exist: nope" := by
  have hk1 : ¬(k = snapshotTagOf "1" ++ k) := key_ne_tagged "1" k (by decide)
  have hk2 : ¬(k = snapshotTagOf "2" ++ k) := key_ne_tagged "2" k (by decide)
  have h12 : ¬(snapshotTagOf "1" ++ k = snapshotTagOf "2" ++ k) :=
    tagged_ne_tagged _ _ k (by decide)
  have hl2 : alookup [(k, v0), (snapshotTagOf "1" ++ k, v1)] (snapshotTagOf "2" ++ k)
      = none := by
    simp [alookup, hk2, h12]
  have hl1 : alookup [(k, v0), (snapshotTagOf "1" ++ k, v1)] (snapshotTagOf "1" ++ k)
      = some v1 := by
    simp [alookup, hk1]
  have hl0 : alookup [(k, v0), (snapshotTagOf "1" ++ k, v1)] k = some v0 := by
    simp [alookup]
  have hcur : Self.GetCurrentSnapshotID scenMeta2 = "2" := rfl
  have hids : Self.GetChronologicalSnapshotIDs scenMeta2 "2" = ["2", "1"] := rfl
  have hsa : Self.GetSnapshotID scenMeta2 "a" = .ok "1" := rfl
  have hse : Self.GetSnapshotID scenMeta2 "" = .ok "" := rfl
  have hsn : Self.GetSnapshotID scenMeta2 "nope" = .error "snapshot does not exist: nope" := rfl
  have hstep2 := getItemWithSnapshotID_tableSvc kt "2"
    [(k, v0), (snapshotTagOf "1" ++ k, v1)] k
  have hstep1 := getItemWithSnapshotID_tableSvc kt "1"
    [(k, v0), (snapshotTagOf "1" ++ k, v1)] k
  have hstep0 := getItemWithSnapshotID_tableSvc kt ""
    [(k, v0), (snapshotTagOf "1" ++ k, v1)] k
  rw [show (if ("2" : String) = "" then k else snapshotTagOf "2" ++ k)
      = snapshotTagOf "2" ++ k from if_neg (by decide), hl2] at hstep2
  rw [show (if ("1" : String) = "" then k else snapshotTagOf "1" ++ k)
      = snapshotTagOf "1" ++ k from if_neg (by decide), hl1] at hstep1
  rw [show (if ("" : String) = "" then k else snapshotTagOf "" ++ k) = k from if_pos rfl,
    hl0] at hstep0
  refine ⟨?_, ?_, ?_, ?_⟩
  · rw [GetItem]
    show (getItemLoop (scenLib kt) (tableSvc kt) (scenTable2 kt k v0 v1) ⟨keyAttr kt k⟩
      (Self.GetChronologicalSnapshotIDs scenMeta2
        (Self.GetCurrentSnapshotID scenMeta2))).out = .ok (some (keyAttr kt k, v1))
    rw [hcur, hids, scenTable2_eq, getItemLoop, hstep2]
    show (getItemLoop (scenLib kt) (tableSvc kt) [(k, v0), (snapshotTagOf "1" ++ k, v1)]
      ⟨keyAttr kt k⟩ ["1"]).out = .ok (some (keyAttr kt k, v1))
    rw [getItemLoop, hstep1]
    rfl
  · rw [GetItemFromSnapshot, hsa]
    show (getItemWithSnapshotID (scenLib kt) (tableSvc kt) (scenTable2 kt k v0 v1)
      ⟨keyAttr kt k⟩ "1").out = .ok (some (keyAttr kt k, v1))
    rw [scenTable2_eq, hstep1]
    rfl
  · rw [GetItemFromSnapshot, hse]
    show (getItemWithSnapshotID (scenLib kt) (tableSvc kt) (scenTable2 kt k v0 v1)
      ⟨keyAttr kt k⟩ "").out = .ok (some (keyAttr kt k, v0))
    rw [scenTable2_eq, hstep0]
    rfl
  · rw [GetItemFromSnapshot, hsn]

end Ddblibrarian

namespace Ddblibrarian

open Self

/-! Restoration lemmas shared by the fallback-walk and frame-effect
analyses. -/

theorem addSnapshot_fst (kt id : String) (pk : AttributeValue) :
    (addSnapshotToPartitionKey kt id pk).1 = attrGet kt pk := by
  by_cases hid : id = "" <;> simp [addSnapshotToPartitionKey, hid]

theorem restore_addSnapshot (kt id : String) (pk : AttributeValue) :
    restorePartitionKey kt (addSnapshotToPartitionKey kt id pk).1
      (addSnapshotToPartitionKey kt id pk).2 = pk := by
  by_cases hid : id = "" <;>
    simp [addSnapshotToPartitionKey, restorePartitionKey, hid, attrSet_attrSet,
      attrSet_attrGet_self]

theorem getItemWithSnapshotID_input {σ : Type} (L : Library) (svc : Svc σ) (s : σ)
    (input : GetItemInput) (id : String) :
    (getItemWithSnapshotID L svc s input id).input = input := by
  have hr := restore_addSnapshot L.partitionKeyType id input.Key
  unfold getItemWithSnapshotID
  rcases hadd : addSnapshotToPartitionKey L.partitionKeyType id input.Key with ⟨orig, tagged⟩
  rw [hadd] at hr
  rcases hsvc : svc.getItem s tagged with ⟨r, s1⟩
  rcases r with e | o
  · simp [hsvc, hr]
  · rcases o with _ | ⟨ipk, v⟩ <;> simp [hsvc, hr]

theorem deleteItemWithSnapshotID_input {σ : Type} (L : Library) (svc : Svc σ) (s : σ)
    (input : DeleteItemInput) (id : String) :
    (deleteItemWithSnapshotID L svc s input id).input = input := by
  have hr := restore_addSnapshot L.partitionKeyType id input.Key
  unfold deleteItemWithSnapshotID
  rcases hadd : addSnapshotToPartitionKey L.partitionKeyType id input.Key with ⟨orig, tagged⟩
  rw [hadd] at hr
  rcases hsvc : svc.deleteItem s tagged with ⟨r, s1⟩
  simp [hsvc, hr]

theorem getItemWithSnapshotID_pure_error (L : Library)
    (g d : AttributeValue → Except String (Option Item)) (input : GetItemInput)
    (id e : String)
    (h : g (addSnapshotToPartitionKey L.partitionKeyType id input.Key).2 = .error e) :
    (getItemWithSnapshotID L (pureSvc g d) () input id).out = .error e := by
  unfold getItemWithSnapshotID
  rcases hadd : addSnapshotToPartitionKey L.partitionKeyType id input.Key with ⟨orig, tagged⟩
  rw [hadd] at h
  simp [pureSvc, h]

theorem getItemWithSnapshotID_pure_none (L : Library)
    (g d : AttributeValue → Except String (Option Item)) (input : GetItemInput)
    (id : String)
    (h : g (addSnapshotToPartitionKey L.partitionKeyType id input.Key).2 = .ok none) :
    (getItemWithSnapshotID L (pureSvc g d) () input id).out = .ok none := by
  unfold getItemWithSnapshotID
  rcases hadd : addSnapshotToPartitionKey L.partitionKeyType id input.Key with ⟨orig, tagged⟩
  rw [hadd] at h
  simp [pureSvc, h]

theorem getItemLoop_cons_error {σ : Type} (L : Library) (svc : Svc σ) (s : σ)
    (input : GetItemInput) (id : String) (rest : List String) (e : String)
    (h : (getItemWithSnapshotID L svc s input id).out = .error e) :
    (getItemLoop L svc s input (id :: rest)).out = .error e := by
  simp only [getItemLoop]
  rw [h]

theorem getItemLoop_pure_cons_none (L : Library)
    (g d : AttributeValue → Except String (Option Item)) (input : GetItemInput)
    (id : String) (rest : List String)
    (h : (getItemWithSnapshotID L (pureSvc g d) () input id).out = .ok none) :
    getItemLoop L (pureSvc g d) () input (id :: rest)
      = getItemLoop L (pureSvc g d) () input rest := by
  have hin := getItemWithSnapshotID_input L (pureSvc g d) () input id
  simp only [getItemLoop]
  rw [h, hin]

theorem getItemLoop_pure_error (L : Library)
    (g d : AttributeValue → Except String (Option Item)) (input : GetItemInput)
    (bad : String) (post : List String) (e : String)
    (hbad : g (addSnapshotToPartitionKey L.partitionKeyType bad input.Key).2 = .error e) :
    ∀ pre : List String,
      (∀ id ∈ pre, g (addSnapshotToPartitionKey L.partitionKeyType id input.Key).2 = .ok none) →
      (getItemLoop L (pureSvc g d) () input (pre ++ bad :: post)).out = .error e
  | [], _ => by
    rw [List.nil_append]
    exact getItemLoop_cons_error L (pureSvc g d) () input bad post e
      (getItemWithSnapshotID_pure_error L g d input bad e hbad)
  | id' :: pre', hpre => by
    rw [List.cons_append, getItemLoop_pure_cons_none L g d input id' (pre' ++ bad :: post)
      (getItemWithSnapshotID_pure_none L g d input id'
        (hpre id' (List.mem_cons_self id' pre')))]
    exact getItemLoop_pure_error L g d input bad post e hbad pre'
      (fun x hx => hpre x (List.mem_cons_of_mem id' hx))

theorem deleteItemWithSnapshotID_pure_out (L : Library)
    (g d : AttributeValue → Except String (Option Item)) (input : DeleteItemInput)
    (id : String) :
    (deleteItemWithSnapshotID L (pureSvc g d) () input id).out
      = d (addSnapshotToPartitionKey L.partitionKeyType id input.Key).2 := by
  unfold deleteItemWithSnapshotID
  rcases hadd : addSnapshotToPartitionKey L.partitionKeyType id input.Key with ⟨orig, tagged⟩
  simp [pureSvc]

theorem deleteItemLoop_pure_skip (L : Library)
    (g d : AttributeValue → Except String (Option Item)) (input : DeleteItemInput)
    (id : String) (rest : List String)
    (h : d (addSnapshotToPartitionKey L.partitionKeyType id input.Key).2 = .ok none
      ∨ ∃ e, d (addSnapshotToPartitionKey L.partitionKeyType id input.Key).2 = .error e) :
    deleteItemLoop L (pureSvc g d) () input (id :: rest)
      = deleteItemLoop L (pureSvc g d) () input rest := by
  have hout := deleteItemWithSnapshotID_pure_out L g d input id
  have hin := deleteItemWithSnapshotID_input L (pureSvc g d) () input id
  simp only [deleteItemLoop]
  rcases h with h | ⟨e, h⟩ <;> rw [h] at hout <;> rw [hout, hin]

theorem deleteItemLoop_pure_found (L : Library)
    (g d : AttributeValue → Except String (Option Item)) (input : DeleteItemInput)
    (id : String) (rest : List String) (item : Item)
    (h : d (addSnapshotToPartitionKey L.partitionKeyType id input.Key).2 = .ok (some item)) :
    (deleteItemLoop L (pureSvc g d) () input (id :: rest)).out = .ok (some item) := by
  have hout := deleteItemWithSnapshotID_pure_out L g d input id
  rw [h] at hout
  simp only [deleteItemLoop]
  rw [hout]

theorem deleteItemLoop_pure_reaches (L : Library)
    (g d : AttributeValue → Except String (Option Item)) (input : DeleteItemInput)
    (good : String) (post : List String) (item : Item)
    (hgood : d (addSnapshotToPartitionKey L.partitionKeyType good input.Key).2
      = .ok (some item)) :
    ∀ pre : List String,
      (∀ id ∈ pre,
        d (addSnapshotToPartitionKey L.partitionKeyType id input.Key).2 = .ok none
        ∨ ∃ e, d (addSnapshotToPartitionKey L.partitionKeyType id input.Key).2 = .error e) →
      (deleteItemLoop L (pureSvc g d) () input (pre ++ good :: post)).out = .ok (some item)
  | [], _ => by
    rw [List.nil_append]
    exact deleteItemLoop_pure_found L g d input good post item hgood
  | id' :: pre', hpre => by
    rw [List.cons_append, deleteItemLoop_pure_skip L g d input id' (pre' ++ good :: post)
      (hpre id' (List.mem_cons_self id' pre'))]
    exact deleteItemLoop_pure_reaches L g d input good post item hgood pre'
      (fun x hx => hpre x (List.mem_cons_of_mem id' hx))

end Ddblibrarian

namespace Ddblibrarian

open Self

/-- Claim C3 counterexample: a store error during `DeleteItem`'s fallback
walk is not propagated and does not stop the walk.  With the active walk
`["2", "1"]`, the store failing at the key tagged `"2"` and holding an
item at the key tagged `"1"`, `DeleteItem` returns the item found at the
later candidate instead of the error — the claim requires the call to
return the error `"store exploded"` and attempt no later candidate. -/
theorem delete_error_not_propagated_counterexample :
    cexDelSvcFn ⟨"2.k", ""⟩ = .error "store exploded"
    ∧ (DeleteItem (scenLib "S") scenMeta2 (pureSvc cexGetSvcFn cexDelSvcFn) ()
        ⟨⟨"k", ""⟩, none⟩).out = .ok (some (⟨"1.k", ""⟩, "v1")) := by
  exact ⟨rfl, rfl⟩

/-- Claim C3, amended: during `GetItem`'s fallback walk an underlying
store error is propagated unchanged and aborts the walk immediately — no
later candidate (nor the pre-snapshot sentinel) is attempted and the error
is never treated as absence.  `DeleteItem`'s walk, however, ignores store
errors: an attempt that fails is skipped exactly like an absent item, the
walk continues, and the first candidate whose delete reports a previous
item wins (only the final pre-snapshot attempt's outcome is ever returned
verbatim). -/
theorem fallback_error_semantics (L : Library) (meta : MetaState)
    (g d : AttributeValue → Except String (Option Item))
    (input : GetItemInput) (dinput : DeleteItemInput)
    (pre post pre2 post2 : List String) (bad good e : String) (item : Item)
    (hids1 : GetChronologicalSnapshotIDs meta
        (if L.browsing then L.currentSnapshot else GetCurrentSnapshotID meta)
      = pre ++ bad :: post)
    (hpre1 : ∀ id ∈ pre,
      g (addSnapshotToPartitionKey L.partitionKeyType id input.Key).2 = .ok none)
    (hbad : g (addSnapshotToPartitionKey L.partitionKeyType bad input.Key).2 = .error e)
    (hids2 : GetChronologicalSnapshotIDs meta
        (if L.browsing then L.currentSnapshot else GetCurrentSnapshotID meta)
      = pre2 ++ good :: post2)
    (hpre2 : ∀ id ∈ pre2,
      d (addSnapshotToPartitionKey L.partitionKeyType id dinput.Key).2 = .ok none
      ∨ ∃ e2, d (addSnapshotToPartitionKey L.partitionKeyType id dinput.Key).2 = .error e2)
    (hgood : d (addSnapshotToPartitionKey L.partitionKeyType good dinput.Key).2
      = .ok (some item)) :
    (GetItem L meta (pureSvc g d) () input).out = .error e
    ∧ (DeleteItem L meta (pureSvc g d) () dinput).out = .ok (some item) := by
  constructor
  · rw [GetItem]
    show (getItemLoop L (pureSvc g d) () input
      (GetChronologicalSnapshotIDs meta
        (if L.browsing then L.currentSnapshot else GetCurrentSnapshotID meta))).out = .error e
    rw [hids1]
    exact getItemLoop_pure_error L g d input bad post e hbad pre hpre1
  · rw [DeleteItem]
    show (deleteItemLoop L (pureSvc g d) ()
      { dinput with ReturnValues := some "ALL_OLD" }
      (GetChronologicalSnapshotIDs meta
        (if L.browsing then L.currentSnapshot else GetCurrentSnapshotID meta))).out
      = .ok (some item)
    rw [hids2]
    exact deleteItemLoop_pure_reaches L g d { dinput with ReturnValues := some "ALL_OLD" }
      good post2 item hgood pre2 hpre2

/-- Witness for the amended C3: with the walk `["2", "1"]`, a get-error at
the first candidate propagates from `GetItem`, while a delete-error at the
first candidate is skipped by `DeleteItem`, which returns the item deleted
at the second candidate. -/
theorem fallback_error_semantics_witness :
    cexGetSvcFn ⟨"2.k", ""⟩ = .error "boom"
    ∧ (GetItem (scenLib "S") scenMeta2 (pureSvc cexGetSvcFn cexDelSvcFn) ()
        ⟨⟨"k", ""⟩⟩).out = .error "boom"
    ∧ (DeleteItem (scenLib "S") scenMeta2 (pureSvc cexGetSvcFn cexDelSvcFn) ()
        ⟨⟨"k", ""⟩, some "NONE"⟩).out = .ok (some (⟨"1.k", ""⟩, "v1")) := by
  have h := fallback_error_semantics (scenLib "S") scenMeta2 cexGetSvcFn cexDelSvcFn
    ⟨⟨"k", ""⟩⟩ ⟨⟨"k", ""⟩, some "NONE"⟩ [] ["1"] ["2"] [] "2" "1" "boom"
    (⟨"1.k", ""⟩, "v1") rfl
    (fun id hid => absurd hid (List.not_mem_nil id))
    rfl rfl
    (fun id hid => by
      rw [List.mem_singleton] at hid
      subst hid
      exact Or.inr ⟨"store exploded", rfl⟩)
    rfl
  exact ⟨rfl, h.1, h.2⟩

end Ddblibrarian

namespace Ddblibrarian

open Self

theorem deleteItemLoop_input {σ : Type} (L : Library) (svc : Svc σ) :
    ∀ (ids : List String) (s : σ) (input : DeleteItemInput),
      (deleteItemLoop L svc s input ids).input = input
  | [], s, input => deleteItemWithSnapshotID_input L svc s input ""
  | id :: rest, s, input => by
    simp only [deleteItemLoop]
    rcases hout : (deleteItemWithSnapshotID L svc s input id).out with e | o
    · rw [deleteItemWithSnapshotID_input L svc s input id]
      exact deleteItemLoop_input L svc rest _ input
    · rcases o with _ | item
      · rw [deleteItemWithSnapshotID_input L svc s input id]
        exact deleteItemLoop_input L svc rest _ input
      · rw [deleteItemWithSnapshotID_input L svc s input id]

/-- Claim C10 counterexample: `DeleteItemFromSnapshot` resolves the
snapshot token before touching `ReturnValues`, so on the unknown-snapshot
error path the caller's `ReturnValues` keeps its original value
(`"NONE"` here), not `"ALL_OLD"`. -/
theorem deleteItemFromSnapshot_returnValues_counterexample :
    (DeleteItemFromSnapshot (scenLib "S") scenMeta2 (tableSvc "S") []
        ⟨⟨"k", ""⟩, some "NONE"⟩ "nope").out = .error "snapshot does not exist: nope"
    ∧ ((DeleteItemFromSnapshot (scenLib "S") scenMeta2 (tableSvc "S") []
        ⟨⟨"k", ""⟩, some "NONE"⟩ "nope").input).ReturnValues = some "NONE"
    ∧ (some "NONE" : Option String) ≠ some "ALL_OLD" := by
  exact ⟨rfl, rfl, by decide⟩

/-- Claim C10, amended: `DeleteItem` overwrites the caller's
`ReturnValues` with `ALL_OLD` before the store calls and never restores
it, so after the call — success or store error — the field is `ALL_OLD`;
`DeleteItemFromSnapshot` does the same, but only after the snapshot token
resolves: when resolution fails (unknown snapshot) the call returns the
error and leaves the caller's input, `ReturnValues` included,
completely untouched. -/
theorem deleteItem_returnValues {σ : Type} (L : Library) (meta : MetaState)
    (svc : Svc σ) (s : σ) (input : DeleteItemInput) (snap id e : String) :
    ((DeleteItem L meta svc s input).input).ReturnValues = some "ALL_OLD"
    ∧ (GetSnapshotID meta snap = .ok id →
        ((DeleteItemFromSnapshot L meta svc s input snap).input).ReturnValues
          = some "ALL_OLD")
    ∧ (GetSnapshotID meta snap = .error e →
        (DeleteItemFromSnapshot L meta svc s input snap).input = input) := by
  refine ⟨?_, ?_, ?_⟩
  · rw [DeleteItem, deleteItemLoop_input]
  · intro h
    rw [DeleteItemFromSnapshot, h]
    show ((deleteItemWithSnapshotID L svc s
      { input with ReturnValues := some "ALL_OLD" } id).input).ReturnValues = some "ALL_OLD"
    rw [deleteItemWithSnapshotID_input]
  · intro h
    rw [DeleteItemFromSnapshot, h]

/-- Witness for the amended C10: on the two-snapshot metadata, the
fallback delete and the delete from snapshot `"a"` leave `ALL_OLD` in the
caller's input, while the delete from the unknown name `"nope"` leaves
the original `"NONE"`. -/
theorem deleteItem_returnValues_witness :
    Self.GetSnapshotID scenMeta2 "a" = .ok "1"
    ∧ ((DeleteItem (scenLib "S") scenMeta2 (tableSvc "S") []
        ⟨⟨"k", ""⟩, some "NONE"⟩).input).ReturnValues = some "ALL_OLD"
    ∧ ((DeleteItemFromSnapshot (scenLib "S") scenMeta2 (tableSvc "S") []
        ⟨⟨"k", ""⟩, some "NONE"⟩ "a").input).ReturnValues = some "ALL_OLD"
    ∧ (DeleteItemFromSnapshot (scenLib "S") scenMeta2 (tableSvc "S") []
        ⟨⟨"k", ""⟩, some "NONE"⟩ "nope").input = ⟨⟨"k", ""⟩, some "NONE"⟩ := by
  have h := deleteItem_returnValues (scenLib "S") scenMeta2 (tableSvc "S") []
    ⟨⟨"k", ""⟩, some "NONE"⟩ "a" "1" "unused"
  have h2 := deleteItem_returnValues (scenLib "S") scenMeta2 (tableSvc "S") []
    ⟨⟨"k", ""⟩, some "NONE"⟩ "nope" "unused" "snapshot does not exist: nope"
  exact ⟨rfl, h.1, h.2.1 rfl, h2.2.2 rfl⟩

end Ddblibrarian

namespace Ddblibrarian

open Self

/-! Frame-effect lemmas: what each facade call leaves in the caller's
input structure. -/

theorem PutItem_input {σ : Type} (L : Library) (meta : MetaState) (svc : Svc σ) (s : σ)
    (input : PutItemInput) :
    (PutItem L meta svc s input).input = input := by
  unfold PutItem
  rcases hres : GetSnapshotID meta SNAPSHOT_CURRENT with e | id
  · rfl
  · have hr := restore_addSnapshot L.partitionKeyType id input.key
    rcases hadd : addSnapshotToPartitionKey L.partitionKeyType id input.key with ⟨orig, tagged⟩
    rw [hadd] at hr
    rcases hsvc : svc.putItem s tagged input.value with ⟨r, s1⟩
    simp [hadd, hsvc, hr]

theorem UpdateItem_input {σ : Type} (L : Library) (meta : MetaState) (svc : Svc σ) (s : σ)
    (input : UpdateItemInput) :
    (UpdateItem L meta svc s input).input = input := by
  unfold UpdateItem
  rcases hres : GetSnapshotID meta SNAPSHOT_CURRENT with e | id
  · rfl
  · have hr := restore_addSnapshot L.partitionKeyType id input.Key
    rcases hadd : addSnapshotToPartitionKey L.partitionKeyType id input.Key with ⟨orig, tagged⟩
    rw [hadd] at hr
    rcases hsvc : svc.updateItem s tagged with ⟨r, s1⟩
    simp [hadd, hsvc, hr]

theorem getItemLoop_input {σ : Type} (L : Library) (svc : Svc σ) :
    ∀ (ids : List String) (s : σ) (input : GetItemInput),
      (getItemLoop L svc s input ids).input = input
  | [], s, input => getItemWithSnapshotID_input L svc s input ""
  | id :: rest, s, input => by
    simp only [getItemLoop]
    rcases hout : (getItemWithSnapshotID L svc s input id).out with e | o
    · rw [getItemWithSnapshotID_input L svc s input id]
    · rcases o with _ | item
      · rw [getItemWithSnapshotID_input L svc s input id]
        exact getItemLoop_input L svc rest _ input
      · rw [getItemWithSnapshotID_input L svc s input id]

theorem GetItem_input {σ : Type} (L : Library) (meta : MetaState) (svc : Svc σ) (s : σ)
    (input : GetItemInput) :
    (GetItem L meta svc s input).input = input := by
  rw [GetItem]
  exact getItemLoop_input L svc _ s input

theorem GetItemFromSnapshot_input {σ : Type} (L : Library) (meta : MetaState) (svc : Svc σ)
    (s : σ) (input : GetItemInput) (snap : String) :
    (GetItemFromSnapshot L meta svc s input snap).input = input := by
  unfold GetItemFromSnapshot
  rcases hres : GetSnapshotID meta snap with e | id
  · rfl
  · exact getItemWithSnapshotID_input L svc s input id

theorem map_id_of_mem {α : Type} (f : α → α) :
    ∀ l : List α, (∀ a ∈ l, f a = a) → l.map f = l
  | [], _ => rfl
  | a :: r, h => by
    rw [List.map_cons, h a (List.mem_cons_self a r),
      map_id_of_mem f r (fun x hx => h x (List.mem_cons_of_mem a hx))]

theorem alookup_aupsert_ne {α : Type} (x y : String) (v : α) (hxy : x ≠ y) :
    ∀ m : List (String × α), alookup (aupsert m x v) y = alookup m y
  | [] => by simp [alookup, aupsert, hxy]
  | (a, b) :: r => by
    by_cases hax : a = x
    · subst hax
      simp [alookup, aupsert, hxy]
    · simp only [aupsert, if_neg hax, alookup]
      by_cases hay : a = y
      · simp [hay]
      · simp only [if_neg hay]
        exact alookup_aupsert_ne x y v hxy r

theorem batchGet_input {σ : Type} (L : Library)
    (svcBG : σ → List AttributeValue →
      Except String (Option (List Item) × List AttributeValue) × σ) (s : σ)
    (keys : List AttributeValue) (id : String)
    (hk : ∀ a ∈ keys, '.' ∉ (attrGet L.partitionKeyType a).data)
    (hi : id = "" ∨ ∀ c ∈ id.data, c.isDigit = true) :
    (batchGetItemWithSnapshotID L svcBG s keys id).input = keys := by
  have hmap : (keys.map (fun k => (addSnapshotToPartitionKey L.partitionKeyType id k).2)).map
      (removeSnapshotFromPartitionKey L.partitionKeyType) = keys := by
    rw [List.map_map]
    exact map_id_of_mem _ keys (fun a ha => remove_add_eq L.partitionKeyType id a (hk a ha) hi)
  unfold batchGetItemWithSnapshotID
  rcases hsvc : svcBG s
    (keys.map (fun k => (addSnapshotToPartitionKey L.partitionKeyType id k).2)) with ⟨out, s1⟩
  rcases out with e | ⟨responses, unprocessed⟩ <;> simp [hsvc, hmap]

theorem batchWrite_input {σ : Type} (L : Library) (meta : MetaState)
    (svcBW : σ → List WriteRequest → Except String (List WriteRequest) × σ) (s : σ)
    (requests : List WriteRequest) (id : String)
    (hres : GetSnapshotID meta SNAPSHOT_CURRENT = .ok id) :
    (BatchWriteItem L meta svcBW s requests).input
      = requests.map (tagWriteRequest L.partitionKeyType id) := by
  unfold BatchWriteItem
  rw [hres]
  rcases hsvc : svcBW s (requests.map (tagWriteRequest L.partitionKeyType id)) with ⟨out, s1⟩
  rcases out with e | unprocessed <;> simp [hsvc]

theorem scan_eav_pk_tagged (L : Library) (id : String)
    (m : List (String × AttributeValue)) (a : AttributeValue)
    (hpk : alookup m ":pk" = some a) :
    ∃ m2, scanWithSnapshotID_eav L id (some m) = some m2
      ∧ alookup m2 ":pk" = some (addSnapshotToPartitionKey L.partitionKeyType id a).2 := by
  have hbase : alookup
      (aupsert (aupsert m ":pk" (addSnapshotToPartitionKey L.partitionKeyType id a).2)
        ":metaPK" (keyAttr L.partitionKeyType ddbPartitionKey)) ":pk"
      = some (addSnapshotToPartitionKey L.partitionKeyType id a).2 := by
    rw [alookup_aupsert_ne ":metaPK" ":pk" _ (by decide), alookup_aupsert]
  simp only [scanWithSnapshotID_eav, hpk]
  by_cases hid : id = ""
  · exact ⟨_, by rw [if_pos hid], hbase⟩
  · rw [if_neg hid]
    by_cases hkt : L.partitionKeyType = "S"
    · rw [if_pos hkt]
      exact ⟨_, rfl, by rw [alookup_aupsert_ne ":prefix" ":pk" _ (by decide)]; exact hbase⟩
    · rw [if_neg hkt]
      rcases hp : parseInt64 id with _ | n
      · exact ⟨_, rfl, hbase⟩
      · exact ⟨_, rfl, by
          rw [alookup_aupsert_ne ":nextID" ":pk" _ (by decide),
            alookup_aupsert_ne ":currentID" ":pk" _ (by decide)]
          exact hbase⟩

end Ddblibrarian

namespace Ddblibrarian

open Self

/-- Claim C4 counterexample: `BatchWriteItem` writes the snapshot tag into
the caller's request keys and strips it only from the separate
unprocessed-items structure of the output, so after a successful call
(here: everything processed) the caller's request key holds `"1.k"`, not
the original `"k"`. -/
theorem batchWriteItem_residual_tag_counterexample :
    (BatchWriteItem (scenLib "S") scenMeta1 (fun (s : Unit) _ => (.ok [], s)) ()
        [⟨none, some ⟨"k", ""⟩⟩]).input = [⟨none, some ⟨"1.k", ""⟩⟩]
    ∧ ([⟨none, some ⟨"1.k", ""⟩⟩] : List WriteRequest) ≠ [⟨none, some ⟨"k", ""⟩⟩] := by
  exact ⟨rfl, by decide⟩

/-- Claim C4, amended: the single-item operations (`PutItem`,
`UpdateItem`, `GetItem`, `DeleteItem` and their `FromSnapshot` variants)
leave every caller-supplied key value exactly as it was, on success and
error paths alike (for the delete calls this covers the key; the
`ReturnValues` field is a separate, documented mutation), and
`BatchGetItem` restores the caller's keys by stripping the tag (exact for
delimiter-free raw keys).  `BatchWriteItem`, however, leaves the snapshot
tag on every request key of the caller's input — only the output's
unprocessed-items copies are stripped — and `Scan` retags the `":pk"`
entry of a caller-supplied expression-attribute map in place without
restoring it. -/
theorem facade_key_restoration {σ : Type} (L : Library) (meta : MetaState) (svc : Svc σ)
    (svcBG : σ → List AttributeValue →
      Except String (Option (List Item) × List AttributeValue) × σ)
    (svcBW : σ → List WriteRequest → Except String (List WriteRequest) × σ)
    (s : σ) (pinput : PutItemInput) (uinput : UpdateItemInput) (ginput : GetItemInput)
    (dinput : DeleteItemInput) (snap gid wid sid : String)
    (keys : List AttributeValue) (requests : List WriteRequest)
    (m : List (String × AttributeValue)) (a : AttributeValue) :
    (PutItem L meta svc s pinput).input = pinput
    ∧ (UpdateItem L meta svc s uinput).input = uinput
    ∧ (GetItem L meta svc s ginput).input = ginput
    ∧ (GetItemFromSnapshot L meta svc s ginput snap).input = ginput
    ∧ (DeleteItem L meta svc s dinput).input.Key = dinput.Key
    ∧ (DeleteItemFromSnapshot L meta svc s dinput snap).input.Key = dinput.Key
    ∧ ((∀ a2 ∈ keys, '.' ∉ (attrGet L.partitionKeyType a2).data) →
        (gid = "" ∨ ∀ c ∈ gid.data, c.isDigit = true) →
        (batchGetItemWithSnapshotID L svcBG s keys gid).input = keys)
    ∧ (GetSnapshotID meta SNAPSHOT_CURRENT = .ok wid →
        (BatchWriteItem L meta svcBW s requests).input
          = requests.map (tagWriteRequest L.partitionKeyType wid))
    ∧ (alookup m ":pk" = some a →
        ∃ m2, scanWithSnapshotID_eav L sid (some m) = some m2
          ∧ alookup m2 ":pk" = some (addSnapshotToPartitionKey L.partitionKeyType sid a).2) := by
  refine ⟨PutItem_input L meta svc s pinput, UpdateItem_input L meta svc s uinput,
    GetItem_input L meta svc s ginput, GetItemFromSnapshot_input L meta svc s ginput snap,
    ?_, ?_, ?_, ?_, ?_⟩
  · rw [DeleteItem, deleteItemLoop_input]
  · unfold DeleteItemFromSnapshot
    rcases hres : GetSnapshotID meta snap with e | id
    · rfl
    · rw [deleteItemWithSnapshotID_input]
  · intro hk hi
    exact batchGet_input L svcBG s keys gid hk hi
  · intro hres
    exact batchWrite_input L meta svcBW s requests wid hres
  · intro hpk
    exact scan_eav_pk_tagged L sid m a hpk

/-- Witness for the amended C4 at the string key type over the
one-snapshot metadata (active id `"1"`). -/
theorem facade_key_restoration_witness :
    ('.' ∉ (attrGet "S" ⟨"k", ""⟩).data)
    ∧ Self.GetSnapshotID scenMeta1 Self.SNAPSHOT_CURRENT = .ok "1"
    ∧ (PutItem (scenLib "S") scenMeta1 (tableSvc "S") [] ⟨⟨"k", ""⟩, "v"⟩).input
        = ⟨⟨"k", ""⟩, "v"⟩
    ∧ (GetItem (scenLib "S") scenMeta1 (tableSvc "S") [] ⟨⟨"k", ""⟩⟩).input = ⟨⟨"k", ""⟩⟩
    ∧ (DeleteItem (scenLib "S") scenMeta1 (tableSvc "S") []
        ⟨⟨"k", ""⟩, some "NONE"⟩).input.Key = ⟨"k", ""⟩
    ∧ (batchGetItemWithSnapshotID (scenLib "S")
        (fun (s : List (String × String)) _ => (.ok (none, []), s)) [] [⟨"k", ""⟩] "1").input
        = [⟨"k", ""⟩]
    ∧ (BatchWriteItem (scenLib "S") scenMeta1
        (fun (s : List (String × String)) _ => (.ok [], s)) []
        [⟨none, some ⟨"k", ""⟩⟩]).input = [⟨none, some ⟨"1.k", ""⟩⟩]
    ∧ (∃ m2, scanWithSnapshotID_eav (scenLib "S") "1" (some [(":pk", ⟨"k", ""⟩)]) = some m2
        ∧ alookup m2 ":pk" = some ⟨"1.k", ""⟩) := by
  have h := facade_key_restoration (scenLib "S") scenMeta1 (tableSvc "S")
    (fun (s : List (String × String)) _ => (.ok (none, []), s))
    (fun (s : List (String × String)) _ => (.ok [], s)) []
    ⟨⟨"k", ""⟩, "v"⟩ ⟨⟨"k", ""⟩⟩ ⟨⟨"k", ""⟩⟩ ⟨⟨"k", ""⟩, some "NONE"⟩
    "a" "1" "1" "1" [⟨"k", ""⟩] [⟨none, some ⟨"k", ""⟩⟩] [(":pk", ⟨"k", ""⟩)] ⟨"k", ""⟩
  refine ⟨by decide, rfl, h.1, h.2.2.1, h.2.2.2.2.1, ?_, ?_, ?_⟩
  · exact h.2.2.2.2.2.2.1 (by decide) (Or.inr (by decide))
  · exact (h.2.2.2.2.2.2.2.1 rfl).trans rfl
  · exact h.2.2.2.2.2.2.2.2 rfl

end Ddblibrarian

namespace Ddblibrarian

open Self

/-- Claim C8: the snapshot id used to tag the key in `PutItem` and
`UpdateItem` is independent of the session's browsing state.  Two sessions
over identical metadata that differ only in the browsing flag and the
browsed snapshot produce identical calls — for every service, state and
input the whole outcome coincides — and the physical write they issue (as
recorded by the logging service) is the key tagged with the resolution of
the global `current` token, never the browsed snapshot. -/
theorem writes_ignore_browsing {σ : Type} (kt cs1 cs2 : String) (b1 b2 : Bool)
    (meta : MetaState) (svc : Svc σ) (s : σ) (pinput : PutItemInput)
    (uinput : UpdateItemInput) (id : String) :
    PutItem ⟨kt, b1, cs1⟩ meta svc s pinput = PutItem ⟨kt, b2, cs2⟩ meta svc s pinput
    ∧ UpdateItem ⟨kt, b1, cs1⟩ meta svc s uinput = UpdateItem ⟨kt, b2, cs2⟩ meta svc s uinput
    ∧ (GetSnapshotID meta SNAPSHOT_CURRENT = .ok id →
        (PutItem ⟨kt, b1, cs1⟩ meta logSvc [] pinput).st
          = [((addSnapshotToPartitionKey kt id pinput.key).2, pinput.value)]) := by
  refine ⟨rfl, rfl, ?_⟩
  intro h
  rw [PutItem, h]
  rfl

/-- Witness for C8: with snapshot `"a"` active (id `"1"`), a browsing
session and a non-browsing session issue the same put, and the logged
physical write is the key tagged `"1.k"`. -/
theorem writes_ignore_browsing_witness :
    Self.GetSnapshotID scenMeta1 Self.SNAPSHOT_CURRENT = .ok "1"
    ∧ PutItem ⟨"S", true, "2"⟩ scenMeta1 (tableSvc "S") [] ⟨⟨"k", ""⟩, "v"⟩
        = PutItem ⟨"S", false, ""⟩ scenMeta1 (tableSvc "S") [] ⟨⟨"k", ""⟩, "v"⟩
    ∧ (PutItem ⟨"S", true, "2"⟩ scenMeta1 logSvc [] ⟨⟨"k", ""⟩, "v"⟩).st
        = [(⟨"1.k", ""⟩, "v")] := by
  have h := writes_ignore_browsing "S" "2" "" true false scenMeta1 (tableSvc "S") []
    ⟨⟨"k", ""⟩, "v"⟩ ⟨⟨"k", ""⟩⟩ "1"
  exact ⟨rfl, h.1, (h.2.2 rfl).trans rfl⟩

end Ddblibrarian
